import Mathlib

/-!
# Verification of the Anya chatbot's session/memory/batching core

Shallow embedding of the repository's Python code:

* `src/context_manager.py` — `ContextManager` (conversation store, memory
  record, sessions, impression scheduling, persistence).
* `src/global_memory.py`   — `GlobalMemory` (cross-chat user registry,
  impression history).
* `src/main.py`            — `generate_response`, `should_respond`, and the
  webhook's message-batching / response-delivery logic.

Conventions of the embedding:

* Python `dict`s are insertion-ordered association lists (`dictGet`,
  `dictSet`, `dictDel`); all states built here keep keys unique, exactly as
  a `dict` does.
* `datetime.now()` is an explicit `now : Nat` argument (seconds);
  `a - b > timeout` on datetimes is integer subtraction on `Int`.
* Chat ids and user ids are `Nat`; the source converts them with `str(...)`,
  which is injective on integers, so `Nat` keys are faithful.
* Fallible external calls (the LLM) are `Option`-valued inputs.
-/

namespace Anya

/-- Lookup in a Python-dict association list (keys unique in every state we build). -/
def dictGet {α β : Type} [DecidableEq α] (d : List (α × β)) (k : α) : Option β :=
  match d with
  | [] => none
  | (k0, v) :: t => if k0 = k then some v else dictGet t k

/-- Python `d[k] = v`: replace the binding in place if the key exists, else append. -/
def dictSet {α β : Type} [DecidableEq α] (d : List (α × β)) (k : α) (v : β) : List (α × β) :=
  match d with
  | [] => [(k, v)]
  | (k0, v0) :: t => if k0 = k then (k0, v) :: t else (k0, v0) :: dictSet t k v

/-- Python `del d[k]`: remove the (unique) binding of `k`. -/
def dictDel {α β : Type} [DecidableEq α] (d : List (α × β)) (k : α) : List (α × β) :=
  match d with
  | [] => []
  | (k0, v0) :: t => if k0 = k then t else (k0, v0) :: dictDel t k

/-- Python `k in d`. -/
def dictMem {α β : Type} [DecidableEq α] (d : List (α × β)) (k : α) : Bool :=
  (dictGet d k).isSome

/-- Python list slice `l[-k:]`: for `k = 0` it is the whole list (`l[-0:]` is
`l[0:]`), otherwise the last `k` elements (the whole list when `k ≥ len`). -/
def pySliceLast {α : Type} (k : Nat) (l : List α) : List α :=
  if k = 0 then l else l.drop (l.length - k)

/-- The trim step of `add_message` (src/context_manager.py lines 103-104):
when the list has grown past `max`, keep the Python slice `[-max:]`. -/
def trimConv (max : Nat) (l : List α) : List α :=
  if l.length > max then pySliceLast max l else l

/-- Python truthiness of an optional integer id: `not user_id` is true for
`None` and for `0`. -/
def userFalsy : Option Nat → Bool
  | none => true
  | some n => n == 0

/-- A conversation message entry (the dict built in `ContextManager.add_message`,
src/context_manager.py lines 91-97). -/
structure Message where
  timestamp : Nat
  user_id : Option Nat
  username : String
  content : String
  is_bot : Bool
deriving DecidableEq

/-- A value stored in the chat memory lists: the topic / fact strings, or the
`{info_type: value}` dicts passed for the `user_info` category. -/
inductive MemValue where
  | text (s : String)
  | info (kv : List (String × String))
deriving DecidableEq

/-- Per-user sub-record inside a chat memory (`memory[chat]["users"][uid]`). -/
structure UserRec where
  user_info : List (String × String)
deriving DecidableEq

/-- A per-chat memory record (`self.memory[chat_id]`).  The source initialises
this dict in two places with slightly different key sets
(`_update_memory` lines 208-215 has no `users` key, `add_to_memory` lines
313-320 has no `last_interaction` key); we give the record every field, with
`users = []` / `last_interaction = none` standing for the absent key — the
distinction is unobservable to the code, which only reads these keys through
guarded accesses and round-trips the record verbatim through persistence. -/
structure MemoryRec where
  user_info : List (String × String)
  topics_discussed : List MemValue
  important_facts : List MemValue
  user_impressions : List (Nat × String)
  users : List (Nat × UserRec)
  last_interaction : Option Nat
deriving DecidableEq

/-- A group-chat session (`self.active_sessions[chat_id]`, lines 167-171). -/
structure Session where
  last_activity : Nat
  participants : List (Nat × String)
  starter : Nat
deriving DecidableEq

/-- The impression job stored by `_generate_user_impression`
(src/context_manager.py lines 399-406). -/
structure ImpressionData where
  username : String
  message_count : Nat
  sample : String
  existing_impression : String
  needs_generation : Bool
  last_updated : Nat
deriving DecidableEq

/-- The in-memory state of `ContextManager` (src/context_manager.py lines 11-29).
The `"chatId:userId"` string keys of `user_impressions` and
`last_impression_update` are modelled as `Nat × Nat` pairs (the code builds
them with an f-string and recovers the pair with `split(":")`). -/
structure ContextManager where
  max_messages : Nat
  conversations : List (Nat × List Message)
  memory : List (Nat × MemoryRec)
  active_sessions : List (Nat × Session)
  session_timeout : Nat
  user_impressions : List ((Nat × Nat) × ImpressionData)
  last_impression_update : List ((Nat × Nat) × Nat)
  dirty : Bool
deriving DecidableEq

/-- The fresh memory record built by `add_to_memory` (lines 313-320). -/
def emptyMemoryRec : MemoryRec := ⟨[], [], [], [], [], none⟩

/-- `ContextManager.add_to_memory` (src/context_manager.py lines 308-343).
`now` is `datetime.now()`. -/
def addToMemory (cm : ContextManager) (now chat_id : Nat) (category : String)
    (value : MemValue) (user_id : Option Nat) : ContextManager :=
  let uidOpt : Option Nat := if userFalsy user_id then none else user_id
  let mem0 := (dictGet cm.memory chat_id).getD emptyMemoryRec
  let mem1 :=
    if category = "user_info" ∧ uidOpt.isSome then
      match uidOpt, value with
      | some u, MemValue.info kv =>
        let urec := (dictGet mem0.users u).getD ⟨[]⟩
        let urec : UserRec := ⟨kv.foldl (fun m p => dictSet m p.1 p.2) urec.user_info⟩
        { mem0 with users := dictSet mem0.users u urec }
      | _, _ => mem0
    else if category = "topics_discussed" then
      if value ∉ mem0.topics_discussed then
        { mem0 with topics_discussed := mem0.topics_discussed ++ [value] }
      else mem0
    else if category = "important_facts" then
      if value ∉ mem0.important_facts then
        { mem0 with important_facts := mem0.important_facts ++ [value] }
      else mem0
    else mem0
  let mem2 := { mem1 with last_interaction := some now }
  { cm with memory := dictSet cm.memory chat_id mem2, dirty := true }

/-- `ContextManager._update_memory` (src/context_manager.py lines 206-224). -/
def updateMemory (cm : ContextManager) (now chat_id : Nat) : ContextManager :=
  let mem := (dictGet cm.memory chat_id).getD emptyMemoryRec
  let mem := { mem with last_interaction := some now }
  { cm with memory := dictSet cm.memory chat_id mem, dirty := true }

/-- `ContextManager._generate_user_impression` (src/context_manager.py lines
381-410).  `self.memory[chat_id]` is read through `dictGet … |>.getD`: in every
calling trace the chat's record exists (created by `_update_memory` earlier in
the same `add_message` call). -/
def generateUserImpression (cm : ContextManager) (now chat_id user_id : Nat)
    (username : String) (messages : List Message) : ContextManager :=
  let existing :=
    match dictGet cm.memory chat_id with
    | some m => (dictGet m.user_impressions user_id).getD ""
    | none => ""
  let sample := String.intercalate "\n" ((pySliceLast 50 messages).map (fun m => m.content))
  let data : ImpressionData := ⟨username, messages.length, sample, existing, true, now⟩
  { cm with user_impressions := dictSet cm.user_impressions (chat_id, user_id) data,
            dirty := true }

/-- `ContextManager._maybe_update_user_impression` (src/context_manager.py
lines 345-379): counts this user's non-bot messages; no-op below 10; generates
(and re-baselines the counter) when no baseline exists or 30 or more new
messages accumulated since the last baseline. -/
def maybeUpdateUserImpression (cm : ContextManager) (now chat_id : Nat)
    (user_id : Option Nat) (username : String) : ContextManager :=
  if userFalsy user_id then cm
  else
    match user_id with
    | none => cm
    | some u =>
      let userMessages := ((dictGet cm.conversations chat_id).getD []).filter
        (fun m => !m.is_bot && m.user_id == some u)
      if userMessages.length < 10 then cm
      else
        let key := (chat_id, u)
        let doGen :=
          match dictGet cm.last_impression_update key with
          | none => true
          | some last => decide ((userMessages.length : Int) - (last : Int) ≥ 30)
        if doGen then
          let cm := generateUserImpression cm now chat_id u username userMessages
          { cm with last_impression_update := dictSet cm.last_impression_update key userMessages.length,
                    dirty := true }
        else cm

/-- One `add_to_memory` call performed by the regex scan of
`_auto_detect_important_info` (src/context_manager.py lines 226-287). -/
inductive Detected where
  | userInfo (infoType value : String)
  | topic (value : String)
  | fact (value : String)
deriving DecidableEq

/-- Applies one detected item exactly as `_auto_detect_important_info` does:
personal info goes to category `user_info` (with the user id), topics to
`topics_discussed`, facts to `important_facts`. -/
def applyDetected (cm : ContextManager) (now chat_id : Nat) (user_id : Option Nat) :
    Detected → ContextManager
  | Detected.userInfo k v => addToMemory cm now chat_id "user_info" (MemValue.info [(k, v)]) user_id
  | Detected.topic v => addToMemory cm now chat_id "topics_discussed" (MemValue.text v) none
  | Detected.fact v => addToMemory cm now chat_id "important_facts" (MemValue.text v) none

/-- `ContextManager.add_message` (src/context_manager.py lines 86-119): append
to the chat's list, trim with the Python slice `[-max_messages:]` when the
length exceeds `max_messages`, update the memory record, run auto-detection
and the impression check for non-bot messages, and mark dirty.  `detected`
lists the `add_to_memory` calls the regex scan makes for this text (the regex
matching itself is pure string inspection with no further state effect). -/
def addMessage (cm : ContextManager) (now chat_id : Nat) (user_id : Option Nat)
    (username content : String) (is_bot : Bool) (detected : List Detected) :
    ContextManager × Message :=
  let entry : Message := ⟨now, user_id, username, content, is_bot⟩
  let conv := trimConv cm.max_messages (((dictGet cm.conversations chat_id).getD []) ++ [entry])
  let cm := { cm with conversations := dictSet cm.conversations chat_id conv }
  let cm := updateMemory cm now chat_id
  let cm :=
    if is_bot then cm
    else
      let cm := detected.foldl (fun c d => applyDetected c now chat_id user_id d) cm
      maybeUpdateUserImpression cm now chat_id user_id username
  ({ cm with dirty := true }, entry)

/-- `ContextManager.is_session_active` (src/context_manager.py lines 132-158):
lazy expiry — the query that sees `now - last_activity > timeout` deletes the
session and answers false; with a `user_id` it additionally requires
participant membership. -/
def isSessionActive (cm : ContextManager) (now chat_id : Nat) (user_id : Option Nat) :
    Bool × ContextManager :=
  match dictGet cm.active_sessions chat_id with
  | none => (false, cm)
  | some s =>
    if (now : Int) - (s.last_activity : Int) > (cm.session_timeout : Int) then
      (false, { cm with active_sessions := dictDel cm.active_sessions chat_id })
    else
      match user_id with
      | some u => (dictMem s.participants u, cm)
      | none => (true, { cm with dirty := true })

/-- `ContextManager.start_session` (src/context_manager.py lines 160-174). -/
def startSession (cm : ContextManager) (now chat_id user_id : Nat) (username : String) :
    Bool × ContextManager :=
  (true,
   { cm with active_sessions := dictSet cm.active_sessions chat_id ⟨now, [(user_id, username)], user_id⟩,
             dirty := true })

/-- `ContextManager.get_users_needing_impressions` (src/context_manager.py
lines 455-466): the pending list, one entry per dict key with the
needs-generation flag set. -/
def getUsersNeedingImpressions (cm : ContextManager) : List (Nat × Nat) :=
  (cm.user_impressions.filter (fun p => p.2.needs_generation)).map (fun p => p.1)

/-- The document written by `ContextManager.save_memory_if_dirty`
(src/context_manager.py lines 61-67): memory, active sessions, impression
jobs, impression baselines and a save timestamp — and nothing else; in
particular no conversations. -/
structure MemoryDoc where
  memory : List (Nat × MemoryRec)
  active_sessions : List (Nat × Session)
  user_impressions_data : List ((Nat × Nat) × ImpressionData)
  last_impression_update : List ((Nat × Nat) × Nat)
  last_saved : Nat
deriving DecidableEq

/-- `ContextManager.save_memory_if_dirty` (src/context_manager.py lines 52-77):
no-op when not dirty; otherwise writes the document and clears the flag.  The
file write is assumed to succeed (I/O is outside the model). -/
def saveMemoryIfDirty (cm : ContextManager) (now : Nat) : Option MemoryDoc × ContextManager :=
  if cm.dirty = false then (none, cm)
  else
    (some ⟨cm.memory, cm.active_sessions, cm.user_impressions, cm.last_impression_update, now⟩,
     { cm with dirty := false })

/-- `ContextManager.__init__` + `_load_memory` (src/context_manager.py lines
11-50) on a fresh instance.  `_load_memory` (called at line 17) returns the
document's `memory` and also assigns the document's sessions, impression jobs
and impression baselines to the instance — but `__init__` then reassigns
`active_sessions`, `user_impressions` and `last_impression_update` to `{}`
at lines 19, 23 and 25, after `_load_memory` has run, so only `memory`
survives a reload; conversations always start empty. -/
def loadFromDoc (doc : Option MemoryDoc) (max_messages session_timeout : Nat) : ContextManager :=
  match doc with
  | some d => ⟨max_messages, [], d.memory, [], session_timeout, [], [], false⟩
  | none => ⟨max_messages, [], [], [], session_timeout, [], [], false⟩

/-! ## GlobalMemory (src/global_memory.py) -/

/-- The AI-generated profile block of a global user record
(src/global_memory.py lines 198-203). -/
structure Profile where
  personality : String
  interests : List String
  behavior_patterns : List String
  relationship_with_bot : String
deriving DecidableEq

/-- A global user record (`self.users[user_id]`, src/global_memory.py lines
192-205).  Keys that the code adds later (`chats`, `needs_profile_update`) are
modelled as always-present fields with the empty / false default — the code
only ever reads them through guarded accesses. -/
structure GlobalUser where
  user_id : Nat
  username : String
  first_seen : Nat
  last_seen : Nat
  total_messages : Nat
  profile : Profile
  impressions : List (Nat × String)
  needs_profile_update : Bool
  chats : List (Nat × Nat)
deriving DecidableEq

/-- The state of `GlobalMemory` that its user-record operations touch
(src/global_memory.py lines 11-54); impression timestamps
(`datetime.now().isoformat()` dict keys) are `Nat` — ISO timestamps compare
chronologically under the string sort the code uses, so `Nat` order is
faithful. -/
structure GlobalMemory where
  users : List (Nat × GlobalUser)
  max_impressions : Nat
  dirty : Bool
deriving DecidableEq

/-- The key with the smallest timestamp: `sorted(impressions.items())[0][0]`
(src/global_memory.py lines 284-285). -/
def minKey (l : List (Nat × String)) : Option Nat :=
  match l with
  | [] => none
  | (k, _) :: t =>
    match minKey t with
    | none => some k
    | some m => some (min k m)

/-- `GlobalMemory.get_user_profile` (src/global_memory.py lines 215-228):
returns the record and clears its needs-update flag as a side effect; unknown
user returns `None` and changes nothing.  `_save_memory`'s file write is
assumed to succeed, leaving the dirty flag cleared. -/
def getUserProfile (gm : GlobalMemory) (user_id : Nat) : Option GlobalUser × GlobalMemory :=
  match dictGet gm.users user_id with
  | some u =>
    let u' := { u with needs_profile_update := false }
    (some u', { gm with users := dictSet gm.users user_id u', dirty := false })
  | none => (none, gm)

/-- `GlobalMemory.save_user_profile` (src/global_memory.py lines 241-260):
returns `False` without touching anything for an unknown user; otherwise
overwrites the profile and clears the needs-update flag. -/
def saveUserProfile (gm : GlobalMemory) (user_id : Nat) (profile_data : Profile) :
    Bool × GlobalMemory :=
  match dictGet gm.users user_id with
  | none => (false, gm)
  | some u =>
    let u' := { u with profile := profile_data, needs_profile_update := false }
    (true, { gm with users := dictSet gm.users user_id u', dirty := false })

/-- `GlobalMemory.save_user_impression` (src/global_memory.py lines 262-291):
returns `False` without touching anything for an unknown user; otherwise
inserts the impression under the current timestamp and, when the history
exceeds `max_impressions`, deletes the entry with the chronologically oldest
timestamp. -/
def saveUserImpression (gm : GlobalMemory) (now user_id : Nat) (impression : String) :
    Bool × GlobalMemory :=
  match dictGet gm.users user_id with
  | none => (false, gm)
  | some u =>
    let imps := dictSet u.impressions now impression
    let imps :=
      if imps.length > gm.max_impressions then
        match minKey imps with
        | some oldest => dictDel imps oldest
        | none => imps
      else imps
    let u' := { u with impressions := imps }
    (true, { gm with users := dictSet gm.users user_id u', dirty := false })

/-! ## Response generation and delivery (src/main.py) -/

/-- The fixed apologetic fallback string of `generate_response`
(src/main.py line 454) and of the webhook's exception handler (line 1623). -/
def fallbackText : String := "вибач, щось пішло не так. спробуй ще раз через хвилину"

/-- The LLM call and exception handler of `generate_response` (src/main.py
lines 441-454).  The prompt assembly above those lines only builds the string
sent out; the outcome of `client.models.generate_content` is the input
`llmResult` (`some text` on success, `none` when the call raises).  On
failure the function catches the exception and returns the fallback string as
its ordinary return value. -/
def generateResponse (llmResult : Option String) : String :=
  match llmResult with
  | some text => text
  | none => fallbackText

/-- An outbound `send_message` call: chat id, text, optional reply target. -/
structure SendEvent where
  chat : Nat
  text : String
  reply_to : Option Nat
deriving DecidableEq

/-- The response path of the webhook for a triggered message (src/main.py
lines 1602-1618): generate, deliver, and append the result to the
conversation store as a bot message — unconditionally, because
`generate_response` never raises for an LLM failure (it returns the fallback
string instead), so the `except` branch at lines 1620-1623 is not reached on
that path.  `botName` is `CONFIG["bot_name"]`. -/
def handleTriggeredMessage (cm : ContextManager) (now chat_id : Nat)
    (llmResult : Option String) (is_group : Bool) (triggering_message_id : Nat)
    (botName : String) : ContextManager × List SendEvent :=
  let response_text := generateResponse llmResult
  let reply_id := if is_group then some triggering_message_id else none
  let cm := (addMessage cm now chat_id none botName response_text true []).1
  (cm, [⟨chat_id, response_text, reply_id⟩])

/-! ## Message batching (src/main.py lines 1503-1539) -/

/-- An open batch (`message_batches[batch_key]`, src/main.py lines 1519-1527). -/
structure BatchEntry where
  messages : List String
  message_ids : List Nat
  username : String
  user_id : Nat
  is_group : Bool
  created : Nat
  last_update : Nat
deriving DecidableEq

/-- One webhook invocation's pass through the message-batching block
(src/main.py lines 1503-1539), for a keyword-matched, non-forwarded message
with batching enabled.  Keys `f"{chat_id}:{user_id}"` are `Nat × Nat` pairs.
Returns the new `message_batches` dict and `some (messages, first_id)` when
this call flushes (proceeds to response generation with the accumulated
messages), or `none` when it merely appended to an open batch and returned
early.  The source creates a batch and, with the `time.sleep` hold removed
(line 1530), immediately reads it back, deletes the key and flushes. -/
def submitToBatch (batches : List ((Nat × Nat) × BatchEntry)) (now chat_id user_id : Nat)
    (message_text : String) (message_id : Nat) (username : String) (is_group : Bool)
    (timeout : Nat) : List ((Nat × Nat) × BatchEntry) × Option (List String × Nat) :=
  let batch_key := (chat_id, user_id)
  match dictGet batches batch_key with
  | some b =>
    if (now : Int) - (b.last_update : Int) < (timeout : Int) then
      let b' := { b with messages := b.messages ++ [message_text],
                         message_ids := b.message_ids ++ [message_id],
                         last_update := now }
      (dictSet batches batch_key b', none)
    else
      let entry : BatchEntry := ⟨[message_text], [message_id], username, user_id, is_group, now, now⟩
      let batches := dictSet batches batch_key entry
      let batched := (dictGet batches batch_key).getD entry
      (dictDel batches batch_key, some (batched.messages, batched.message_ids.headD 0))
  | none =>
    let entry : BatchEntry := ⟨[message_text], [message_id], username, user_id, is_group, now, now⟩
    let batches := dictSet batches batch_key entry
    let batched := (dictGet batches batch_key).getD entry
    (dictDel batches batch_key, some (batched.messages, batched.message_ids.headD 0))

/-! ## Keyword trigger matching (`should_respond`, src/main.py lines 456-532) -/

/-- The configuration fields `should_respond` consults. -/
structure TriggerConfig where
  respond_to_direct_messages : Bool
  enabled : Bool
  case_sensitive : Bool
  keywords : List String
  ignored_phrases : List String
  whole_word_only : Bool
  must_be_at_beginning : Bool
deriving DecidableEq

/-- Python `str.lower` on the alphabets this program uses: ASCII letters and
the Unicode Cyrillic block U+0400-U+04FF (U+0410-U+042F map to +0x20,
U+0400-U+040F — Ё, Є, І, Ї, … — map to +0x50, exactly the Unicode simple
lowercase mappings). -/
def pyLowerChar (c : Char) : Char :=
  if 'A' ≤ c ∧ c ≤ 'Z' then Char.ofNat (c.toNat + 32)
  else if 0x410 ≤ c.toNat ∧ c.toNat ≤ 0x42F then Char.ofNat (c.toNat + 0x20)
  else if 0x400 ≤ c.toNat ∧ c.toNat ≤ 0x40F then Char.ofNat (c.toNat + 0x50)
  else c

/-- `str.lower` lifted to strings. -/
def pyLower (s : String) : String := ⟨s.data.map pyLowerChar⟩

/-- `string.punctuation` (the ASCII punctuation characters replaced by spaces
at src/main.py lines 487-488). -/
def pyPunctuation : List Char := "!\"#$%&'()*+,-./:;<=>?@[\\]^_`{|}~".data

/-- A word character for Python's `re` `\b` on the alphabets this program
uses: `[a-zA-Z0-9_]` plus the Cyrillic block U+0400-U+04FF (all of which are
Unicode letters). -/
def isWordChar (c : Char) : Bool :=
  c.isAlphanum || c == '_' || (0x400 ≤ c.toNat && c.toNat ≤ 0x4FF)

/-- Python `needle in hay` on strings (substring containment; the empty
needle is contained in everything). -/
def containsSub (needle : List Char) : List Char → Bool
  | [] => needle.isEmpty
  | c :: t => needle.isPrefixOf (c :: t) || containsSub needle t

/-- `re.search(r'\b' + kw + r'\b', s)` for a keyword made of word characters:
some occurrence of `kw` is preceded by start-of-string or a non-word
character (`prev`) and followed by end-of-string or a non-word character. -/
def wholeWordAux (kw : List Char) (prev : Option Char) : List Char → Bool
  | [] => false
  | c :: t =>
    ((match prev with | none => true | some p => !isWordChar p) &&
       kw.isPrefixOf (c :: t) &&
       (match (c :: t).drop kw.length with
        | [] => true
        | b :: _ => !isWordChar b)) ||
    wholeWordAux kw (some c) t

/-- Whole-word search over a string (empty text never matches a nonempty
keyword; `should_respond` is only called with nonempty keywords). -/
def wholeWordSearch (kw s : List Char) : Bool := wholeWordAux kw none s

/-- `re.search(r'^\s*\b' + kw + r'\b', s)`: the keyword as a whole word after
optional leading whitespace. -/
def wholeWordAtStart (kw : List Char) : List Char → Bool
  | [] => false
  | c :: t =>
    if c == ' ' then wholeWordAtStart kw t
    else
      kw.isPrefixOf (c :: t) &&
      (match (c :: t).drop kw.length with
       | [] => true
       | b :: _ => !isWordChar b)

/-- Python `str.split()` on spaces (the only whitespace our inputs contain):
maximal nonempty runs of non-space characters. -/
def splitWords (s : List Char) : List (List Char) :=
  match s with
  | [] => []
  | c :: t =>
    let rest := splitWords t
    if c == ' ' then rest
    else
      match t with
      | [] => [[c]]
      | b :: _ =>
        if b == ' ' then [c] :: rest
        else
          match rest with
          | [] => [[c]]
          | w :: ws => (c :: w) :: ws

/-- The per-keyword test of `should_respond` (src/main.py lines 500-530),
on the punctuation-stripped text. -/
def keywordHit (cfg : TriggerConfig) (kw check_text : List Char) : Bool :=
  if cfg.whole_word_only then
    (if cfg.must_be_at_beginning then wholeWordAtStart kw check_text
     else wholeWordSearch kw check_text) ||
    kw.isPrefixOf (check_text.filter (fun c => c ≠ ' '))
  else
    if cfg.must_be_at_beginning then
      match splitWords check_text with
      | [] => false
      | w :: _ => containsSub kw w
    else
      containsSub kw check_text ||
      kw.isPrefixOf (check_text.filter (fun c => c ≠ ' '))

/-- `should_respond` (src/main.py lines 456-532): direct-command short
circuit, trigger-detection switch, optional lowercasing, ignored-phrase veto,
punctuation-to-space preprocessing, then the per-keyword match.  (The
`words_to_check` list built at lines 492-497 is never consulted by the
matching loop and is omitted.) -/
def shouldRespond (cfg : TriggerConfig) (text : String) : Bool :=
  if cfg.respond_to_direct_messages && text.startsWith "/" then true
  else if !cfg.enabled then false
  else
    let check_text := if !cfg.case_sensitive then pyLower text else text
    let keywords := if !cfg.case_sensitive then cfg.keywords.map pyLower else cfg.keywords
    let ignored := if !cfg.case_sensitive then cfg.ignored_phrases.map pyLower else cfg.ignored_phrases
    if ignored.any (fun p => containsSub p.data (pyLower check_text).data) then false
    else
      let stripped := check_text.data.map (fun c => if c ∈ pyPunctuation then ' ' else c)
      keywords.any (fun kw => keywordHit cfg kw.data stripped)

/-! ## Library lemmas about the dict model -/

theorem dictGet_set_self {α β : Type} [DecidableEq α] (d : List (α × β)) (k : α) (v : β) :
    dictGet (dictSet d k v) k = some v := by
  induction d with
  | nil => simp [dictSet, dictGet]
  | cons p t ih =>
    by_cases h : p.1 = k <;> simp [dictSet, dictGet, h, ih]

theorem dictGet_eq_none_iff {α β : Type} [DecidableEq α] (d : List (α × β)) (k : α) :
    dictGet d k = none ↔ k ∉ d.map Prod.fst := by
  induction d with
  | nil => simp [dictGet]
  | cons p t ih =>
    by_cases h : p.1 = k
    · subst h; simp [dictGet]
    · have h' : ¬ (k = p.1) := fun hh => h hh.symm
      simp [dictGet, h, ih, h']

theorem mem_keys_dictSet {α β : Type} [DecidableEq α] (d : List (α × β)) (k : α) (v : β)
    (a : α) : a ∈ (dictSet d k v).map Prod.fst ↔ a ∈ d.map Prod.fst ∨ a = k := by
  induction d with
  | nil => simp [dictSet]
  | cons p t ih =>
    by_cases h : p.1 = k
    · subst h; simp [dictSet]; tauto
    · simp [dictSet, h, ih]; tauto

theorem nodup_keys_dictSet {α β : Type} [DecidableEq α] (d : List (α × β)) (k : α) (v : β)
    (h : (d.map Prod.fst).Nodup) : ((dictSet d k v).map Prod.fst).Nodup := by
  induction d with
  | nil => simp [dictSet]
  | cons p t ih =>
    by_cases hk : p.1 = k
    · subst hk; simpa [dictSet] using h
    · simp only [dictSet, if_neg hk, List.map_cons, List.nodup_cons] at h ⊢
      refine ⟨fun hmem => ?_, ih h.2⟩
      rcases (mem_keys_dictSet t k v p.1).mp hmem with h1 | h1
      · exact h.1 h1
      · exact hk h1

theorem dictGet_del_self {α β : Type} [DecidableEq α] (d : List (α × β)) (k : α)
    (h : (d.map Prod.fst).Nodup) : dictGet (dictDel d k) k = none := by
  induction d with
  | nil => simp [dictDel, dictGet]
  | cons p t ih =>
    simp only [List.map_cons, List.nodup_cons] at h
    by_cases hk : p.1 = k
    · subst hk
      simpa [dictDel, dictGet_eq_none_iff] using h.1
    · simp [dictDel, dictGet, hk, ih h.2]

theorem dictSet_of_not_mem {α β : Type} [DecidableEq α] (d : List (α × β)) (k : α) (v : β)
    (h : dictGet d k = none) : dictSet d k v = d ++ [(k, v)] := by
  induction d with
  | nil => simp [dictSet]
  | cons p t ih =>
    simp only [dictGet] at h
    by_cases hk : p.1 = k
    · simp [hk] at h
    · simp only [if_neg hk] at h
      simp [dictSet, hk, ih h]

theorem dictDel_append_self {α β : Type} [DecidableEq α] (d : List (α × β)) (k : α) (v : β)
    (h : dictGet d k = none) : dictDel (d ++ [(k, v)]) k = d := by
  induction d with
  | nil => simp [dictDel]
  | cons p t ih =>
    simp only [dictGet] at h
    by_cases hk : p.1 = k
    · simp [hk] at h
    · simp only [if_neg hk] at h
      simp [dictDel, hk, ih h]

/-! ## C8 — keyword trigger matching -/

/-- C8: with keyword "Аню", case-insensitivity on, whole-word-only off and
must-be-at-beginning off, `should_respond` accepts "привітАню" (keyword glued
to other letters with no separating space); with whole-word-only enabled it
rejects "манюня". -/
theorem c8_keyword_trigger :
    shouldRespond ⟨true, true, false, ["Аню"], [], false, false⟩ "привітАню" = true ∧
    shouldRespond ⟨true, true, false, ["Аню"], [], true, false⟩ "манюня" = false := by
  exact ⟨by decide, by decide⟩

/-! ## C10 — unknown users in the global directory -/

/-- C10: for a user id absent from the global users map, `save_user_profile`
and `save_user_impression` return `False` and leave the state unchanged (no
record is auto-created), and `get_user_profile` returns `None` without
modifying anything. -/
theorem c10_unknown_user_noop (gm : GlobalMemory) (u now : Nat) (prof : Profile)
    (text : String) (h : dictGet gm.users u = none) :
    saveUserProfile gm u prof = (false, gm) ∧
    saveUserImpression gm now u text = (false, gm) ∧
    getUserProfile gm u = (none, gm) := by
  refine ⟨?_, ?_, ?_⟩ <;> simp [saveUserProfile, saveUserImpression, getUserProfile, h]

/-- Witness for C10 at a concrete store that does not know user 3. -/
theorem c10_unknown_user_noop_witness :
    saveUserProfile ⟨[], 5, false⟩ 3 ⟨"", [], [], "neutral"⟩ = (false, ⟨[], 5, false⟩) ∧
    saveUserImpression ⟨[], 5, false⟩ 1 3 "imp" = (false, ⟨[], 5, false⟩) ∧
    getUserProfile ⟨[], 5, false⟩ 3 = (none, ⟨[], 5, false⟩) :=
  c10_unknown_user_noop ⟨[], 5, false⟩ 3 1 ⟨"", [], [], "neutral"⟩ "imp" (by decide)

/-! ## C6 — session lazy expiry -/

/-- C6: a session started at `t0` with timeout `S = cm.session_timeout`
queried at `t0 + S + 1` (no intervening activity) answers false and deletes
the session, and a subsequent `start_session` at that time succeeds exactly
as from scratch: the new session holds only the new starter. -/
theorem c6_session_lazy_expiry (cm : ContextManager) (t0 chat u0 : Nat) (n0 : String)
    (q : Option Nat) (u : Nat) (n : String)
    (hkeys : (cm.active_sessions.map Prod.fst).Nodup) :
    let cm1 := (startSession cm t0 chat u0 n0).2
    let r := isSessionActive cm1 (t0 + cm.session_timeout + 1) chat q
    r.1 = false ∧
    dictGet r.2.active_sessions chat = none ∧
    (startSession r.2 (t0 + cm.session_timeout + 1) chat u n).1 = true ∧
    dictGet (startSession r.2 (t0 + cm.session_timeout + 1) chat u n).2.active_sessions chat =
      some ⟨t0 + cm.session_timeout + 1, [(u, n)], u⟩ := by
  have hget : dictGet (dictSet cm.active_sessions chat ⟨t0, [(u0, n0)], u0⟩) chat =
      some ⟨t0, [(u0, n0)], u0⟩ := dictGet_set_self _ _ _
  have hcond : ((t0 + cm.session_timeout + 1 : Nat) : Int) - (t0 : Int) >
      (cm.session_timeout : Int) := by push_cast; omega
  refine ⟨?_, ?_, rfl, ?_⟩
  · simp only [startSession, isSessionActive, hget]
    rw [if_pos hcond]
  · simp only [startSession, isSessionActive, hget]
    rw [if_pos hcond]
    exact dictGet_del_self _ _ (nodup_keys_dictSet _ _ _ hkeys)
  · simp only [startSession, isSessionActive, hget]
    rw [if_pos hcond]
    exact dictGet_set_self _ _ _

/-- Witness for C6: a fresh manager with timeout 300, session started at 100
by user 7, queried at 401. -/
theorem c6_session_lazy_expiry_witness :
    let cm1 := (startSession (loadFromDoc none 250 300) 100 1 7 "ann").2
    let r := isSessionActive cm1 401 1 none
    r.1 = false ∧ dictGet r.2.active_sessions 1 = none ∧
    (startSession r.2 401 1 9 "bob").1 = true ∧
    dictGet (startSession r.2 401 1 9 "bob").2.active_sessions 1 =
      some ⟨401, [(9, "bob")], 9⟩ :=
  c6_session_lazy_expiry (loadFromDoc none 250 300) 100 1 7 "ann" none 9 "bob" (by decide)

/-! ## C2 — LLM failure handling on the webhook response path -/

/-- C2 counterexample: when the LLM call fails (`llmResult = none`), the
fallback text is delivered AND a bot message carrying the fallback text is
appended to the conversation store — refuting the claim that no bot message
is appended for the failed attempt. -/
theorem c2_counterexample :
    (handleTriggeredMessage (loadFromDoc none 250 300) 5 1 none false 9 "Аня").2 =
      [⟨1, fallbackText, none⟩] ∧
    dictGet (handleTriggeredMessage (loadFromDoc none 250 300) 5 1 none false 9 "Аня").1.conversations 1 =
      some [⟨5, none, "Аня", fallbackText, true⟩] := by
  exact ⟨by decide, by decide⟩

/-- C2 amended: `generate_response` catches the LLM exception internally and
returns the fallback string as an ordinary reply, so the webhook path
delivers `generateResponse llmResult` (the reply on success, the fallback on
failure) and appends it to the conversation store as a bot message in both
cases. -/
theorem c2_reply_handling_amended (cm : ContextManager) (now chat mid : Nat)
    (g : Bool) (botName : String) (llm : Option String)
    (hroom : (((dictGet cm.conversations chat).getD []).length + 1) ≤ cm.max_messages) :
    (handleTriggeredMessage cm now chat llm g mid botName).2 =
      [⟨chat, generateResponse llm, if g then some mid else none⟩] ∧
    dictGet (handleTriggeredMessage cm now chat llm g mid botName).1.conversations chat =
      some (((dictGet cm.conversations chat).getD []) ++
        [⟨now, none, botName, generateResponse llm, true⟩]) ∧
    generateResponse none = fallbackText ∧
    (∀ t, generateResponse (some t) = t) := by
  refine ⟨rfl, ?_, rfl, fun t => rfl⟩
  have htrim : trimConv cm.max_messages (((dictGet cm.conversations chat).getD []) ++
      [⟨now, none, botName, generateResponse llm, true⟩]) =
      ((dictGet cm.conversations chat).getD []) ++
        [⟨now, none, botName, generateResponse llm, true⟩] := by
    simp only [trimConv, List.length_append, List.length_cons, List.length_nil]
    rw [if_neg (by omega)]
  simp only [handleTriggeredMessage, addMessage, updateMemory, htrim]
  exact dictGet_set_self _ _ _

/-- Witness for C2's amended theorem at a fresh store and a failing LLM call. -/
theorem c2_reply_handling_amended_witness :
    (handleTriggeredMessage (loadFromDoc none 250 300) 0 2 none true 4 "Аня").2 =
      [⟨2, generateResponse none, some 4⟩] ∧
    dictGet (handleTriggeredMessage (loadFromDoc none 250 300) 0 2 none true 4 "Аня").1.conversations 2 =
      some [⟨0, none, "Аня", generateResponse none, true⟩] ∧
    generateResponse none = fallbackText ∧
    (∀ t, generateResponse (some t) = t) :=
  c2_reply_handling_amended (loadFromDoc none 250 300) 0 2 4 true "Аня" none (by decide)

/-! ## C3 — message-batcher flush behaviour -/

/-- C3 counterexample: two sequential submits for the same key one second
apart (inside the 2-second timeout window) each produce their own flush, the
first with only the first message and the second with only the second —
refuting "exactly one flush whose combined turn contains both messages". -/
theorem c3_counterexample :
    (submitToBatch [] 0 5 7 "m1" 11 "bob" false 2).2 = some (["m1"], 11) ∧
    (submitToBatch (submitToBatch [] 0 5 7 "m1" 11 "bob" false 2).1 1 5 7 "m2" 12 "bob" false 2).2 =
      some (["m2"], 12) := by
  exact ⟨by decide, by decide⟩

/-- C3 amended: with the `time.sleep` hold removed, the call that creates a
batch immediately flushes it with just its own message and deletes the key;
a second submit for the same key therefore finds no open batch — even inside
the timeout window — and likewise creates, flushes and deletes.  Two submits
yield two single-message flushes, and after each flush the key is absent, so
later messages start a fresh batch. -/
theorem c3_batch_single_flush_amended (bs : List ((Nat × Nat) × BatchEntry))
    (now1 now2 c u m1id m2id tout : Nat) (m1 m2 un : String) (g : Bool)
    (h : dictGet bs (c, u) = none) :
    (submitToBatch bs now1 c u m1 m1id un g tout).2 = some ([m1], m1id) ∧
    dictGet (submitToBatch bs now1 c u m1 m1id un g tout).1 (c, u) = none ∧
    (submitToBatch (submitToBatch bs now1 c u m1 m1id un g tout).1 now2 c u m2 m2id un g tout).2 =
      some ([m2], m2id) ∧
    dictGet (submitToBatch (submitToBatch bs now1 c u m1 m1id un g tout).1 now2 c u m2 m2id un g tout).1 (c, u) =
      none := by
  have h1 : submitToBatch bs now1 c u m1 m1id un g tout = (bs, some ([m1], m1id)) := by
    simp only [submitToBatch, h, dictGet_set_self, Option.getD_some, List.headD_cons]
    rw [dictSet_of_not_mem _ _ _ h, dictDel_append_self _ _ _ h]
  have h2 : submitToBatch bs now2 c u m2 m2id un g tout = (bs, some ([m2], m2id)) := by
    simp only [submitToBatch, h, dictGet_set_self, Option.getD_some, List.headD_cons]
    rw [dictSet_of_not_mem _ _ _ h, dictDel_append_self _ _ _ h]
  refine ⟨?_, ?_, ?_, ?_⟩ <;> simp [h1, h2, h]

/-- Witness for C3's amended theorem: empty batch dict, submits at 0 and 1
with timeout 2. -/
theorem c3_batch_single_flush_amended_witness :
    (submitToBatch [] 0 5 7 "m1" 11 "bob" false 2).2 = some (["m1"], 11) ∧
    dictGet (submitToBatch [] 0 5 7 "m1" 11 "bob" false 2).1 (5, 7) = none ∧
    (submitToBatch (submitToBatch [] 0 5 7 "m1" 11 "bob" false 2).1 1 5 7 "m2" 12 "bob" false 2).2 =
      some (["m2"], 12) ∧
    dictGet (submitToBatch (submitToBatch [] 0 5 7 "m1" 11 "bob" false 2).1 1 5 7 "m2" 12 "bob" false 2).1 (5, 7) =
      none :=
  c3_batch_single_flush_amended [] 0 1 5 7 11 12 2 "m1" "m2" "bob" false (by decide)

/-! ## C1 — persistence round-trip -/

/-- C1 counterexample: a reachable store holding one message round-trips
through `save_memory_if_dirty` / `_load_memory` to a store whose
conversations differ (they come back empty): the saved document contains no
conversations map. -/
theorem c1_counterexample :
    (loadFromDoc
        (saveMemoryIfDirty ((addMessage (loadFromDoc none 250 300) 0 1 (some 2) "alice" "hi" false []).1) 1).1
        250 300).conversations ≠
      ((addMessage (loadFromDoc none 250 300) 0 1 (some 2) "alice" "hi" false []).1).conversations := by
  decide

/-- C1 amended: saving a dirty store writes a document holding the memory,
active sessions, impression jobs and impression baselines — but reloading it
on a fresh instance restores only the memory contents: the conversations map
is not part of the document at all, and `__init__` reassigns
`active_sessions`, `user_impressions` and `last_impression_update` to empty
after `_load_memory` returns, so those three components come back empty as
well. -/
theorem c1_roundtrip_amended (cm : ContextManager) (now maxM st : Nat)
    (h : cm.dirty = true) :
    ∃ d, (saveMemoryIfDirty cm now).1 = some d ∧
      d.memory = cm.memory ∧
      d.active_sessions = cm.active_sessions ∧
      d.user_impressions_data = cm.user_impressions ∧
      d.last_impression_update = cm.last_impression_update ∧
      (loadFromDoc (some d) maxM st).memory = cm.memory ∧
      (loadFromDoc (some d) maxM st).conversations = [] ∧
      (loadFromDoc (some d) maxM st).active_sessions = [] ∧
      (loadFromDoc (some d) maxM st).user_impressions = [] ∧
      (loadFromDoc (some d) maxM st).last_impression_update = [] := by
  refine ⟨⟨cm.memory, cm.active_sessions, cm.user_impressions, cm.last_impression_update, now⟩,
    ?_, rfl, rfl, rfl, rfl, rfl, rfl, rfl, rfl, rfl⟩
  simp [saveMemoryIfDirty, h]

/-- Witness for C1's amended theorem at a concrete dirty store. -/
theorem c1_roundtrip_amended_witness :
    ∃ d, (saveMemoryIfDirty ((addMessage (loadFromDoc none 250 300) 0 1 (some 2) "alice" "hi" false []).1) 1).1 = some d ∧
      d.memory = ((addMessage (loadFromDoc none 250 300) 0 1 (some 2) "alice" "hi" false []).1).memory ∧
      d.active_sessions = ((addMessage (loadFromDoc none 250 300) 0 1 (some 2) "alice" "hi" false []).1).active_sessions ∧
      d.user_impressions_data = ((addMessage (loadFromDoc none 250 300) 0 1 (some 2) "alice" "hi" false []).1).user_impressions ∧
      d.last_impression_update = ((addMessage (loadFromDoc none 250 300) 0 1 (some 2) "alice" "hi" false []).1).last_impression_update ∧
      (loadFromDoc (some d) 250 300).memory = ((addMessage (loadFromDoc none 250 300) 0 1 (some 2) "alice" "hi" false []).1).memory ∧
      (loadFromDoc (some d) 250 300).conversations = [] ∧
      (loadFromDoc (some d) 250 300).active_sessions = [] ∧
      (loadFromDoc (some d) 250 300).user_impressions = [] ∧
      (loadFromDoc (some d) 250 300).last_impression_update = [] :=
  c1_roundtrip_amended _ 1 250 300 (by decide)

/-! ## C7 — add_to_memory idempotence -/

/-- The chat's discussed-topics list. -/
def chatTopics (cm : ContextManager) (chat : Nat) : List MemValue :=
  ((dictGet cm.memory chat).getD emptyMemoryRec).topics_discussed

/-- The chat's important-facts list. -/
def chatFacts (cm : ContextManager) (chat : Nat) : List MemValue :=
  ((dictGet cm.memory chat).getD emptyMemoryRec).important_facts

/-- The chat's last-interaction timestamp. -/
def chatLastInteraction (cm : ContextManager) (chat : Nat) : Option Nat :=
  ((dictGet cm.memory chat).getD emptyMemoryRec).last_interaction

theorem addToMemory_topics_eq (cm : ContextManager) (now chat : Nat) (v : MemValue)
    (uid : Option Nat) :
    addToMemory cm now chat "topics_discussed" v uid =
      { cm with
        memory := dictSet cm.memory chat
          { ((dictGet cm.memory chat).getD emptyMemoryRec) with
            topics_discussed :=
              if v ∈ ((dictGet cm.memory chat).getD emptyMemoryRec).topics_discussed then
                ((dictGet cm.memory chat).getD emptyMemoryRec).topics_discussed
              else ((dictGet cm.memory chat).getD emptyMemoryRec).topics_discussed ++ [v],
            last_interaction := some now },
        dirty := true } := by
  by_cases hv : v ∈ ((dictGet cm.memory chat).getD emptyMemoryRec).topics_discussed
  · simp [addToMemory, hv]
  · simp [addToMemory, hv]

theorem addToMemory_facts_eq (cm : ContextManager) (now chat : Nat) (v : MemValue)
    (uid : Option Nat) :
    addToMemory cm now chat "important_facts" v uid =
      { cm with
        memory := dictSet cm.memory chat
          { ((dictGet cm.memory chat).getD emptyMemoryRec) with
            important_facts :=
              if v ∈ ((dictGet cm.memory chat).getD emptyMemoryRec).important_facts then
                ((dictGet cm.memory chat).getD emptyMemoryRec).important_facts
              else ((dictGet cm.memory chat).getD emptyMemoryRec).important_facts ++ [v],
            last_interaction := some now },
        dirty := true } := by
  by_cases hv : v ∈ ((dictGet cm.memory chat).getD emptyMemoryRec).important_facts
  · simp [addToMemory, hv]
  · simp [addToMemory, hv]

theorem chatTopics_addToMemory (cm : ContextManager) (now chat : Nat) (v : MemValue)
    (uid : Option Nat) :
    chatTopics (addToMemory cm now chat "topics_discussed" v uid) chat =
      if v ∈ chatTopics cm chat then chatTopics cm chat else chatTopics cm chat ++ [v] := by
  rw [addToMemory_topics_eq]
  simp only [chatTopics, dictGet_set_self, Option.getD_some]

theorem chatFacts_addToMemory (cm : ContextManager) (now chat : Nat) (v : MemValue)
    (uid : Option Nat) :
    chatFacts (addToMemory cm now chat "important_facts" v uid) chat =
      if v ∈ chatFacts cm chat then chatFacts cm chat else chatFacts cm chat ++ [v] := by
  rw [addToMemory_facts_eq]
  simp only [chatFacts, dictGet_set_self, Option.getD_some]

theorem chatLastInteraction_addToMemory_topics (cm : ContextManager) (now chat : Nat)
    (v : MemValue) (uid : Option Nat) :
    chatLastInteraction (addToMemory cm now chat "topics_discussed" v uid) chat = some now := by
  rw [addToMemory_topics_eq]
  simp only [chatLastInteraction, dictGet_set_self, Option.getD_some]

theorem chatLastInteraction_addToMemory_facts (cm : ContextManager) (now chat : Nat)
    (v : MemValue) (uid : Option Nat) :
    chatLastInteraction (addToMemory cm now chat "important_facts" v uid) chat = some now := by
  rw [addToMemory_facts_eq]
  simp only [chatLastInteraction, dictGet_set_self, Option.getD_some]

/-- C7: for the topics and important-facts categories, adding the same value
twice leaves the target list with the value appearing exactly once — the
second add is a no-op on the list — and each add stamps the chat's
last-interaction time.  The hypotheses say the value is not already
duplicated, which `add_to_memory` itself guarantees for every reachable
store. -/
theorem c7_add_fact_idempotent (cm : ContextManager) (t1 t2 chat : Nat) (v : MemValue)
    (uid : Option Nat)
    (hT : (chatTopics cm chat).count v ≤ 1)
    (hF : (chatFacts cm chat).count v ≤ 1) :
    (chatTopics (addToMemory (addToMemory cm t1 chat "topics_discussed" v uid) t2 chat "topics_discussed" v uid) chat =
       chatTopics (addToMemory cm t1 chat "topics_discussed" v uid) chat ∧
     (chatTopics (addToMemory cm t1 chat "topics_discussed" v uid) chat).count v = 1 ∧
     (chatTopics (addToMemory (addToMemory cm t1 chat "topics_discussed" v uid) t2 chat "topics_discussed" v uid) chat).count v = 1 ∧
     chatLastInteraction (addToMemory cm t1 chat "topics_discussed" v uid) chat = some t1 ∧
     chatLastInteraction (addToMemory (addToMemory cm t1 chat "topics_discussed" v uid) t2 chat "topics_discussed" v uid) chat = some t2) ∧
    (chatFacts (addToMemory (addToMemory cm t1 chat "important_facts" v uid) t2 chat "important_facts" v uid) chat =
       chatFacts (addToMemory cm t1 chat "important_facts" v uid) chat ∧
     (chatFacts (addToMemory cm t1 chat "important_facts" v uid) chat).count v = 1 ∧
     (chatFacts (addToMemory (addToMemory cm t1 chat "important_facts" v uid) t2 chat "important_facts" v uid) chat).count v = 1 ∧
     chatLastInteraction (addToMemory cm t1 chat "important_facts" v uid) chat = some t1 ∧
     chatLastInteraction (addToMemory (addToMemory cm t1 chat "important_facts" v uid) t2 chat "important_facts" v uid) chat = some t2) := by
  constructor
  · have hc1 := chatTopics_addToMemory cm t1 chat v uid
    have hmem1 : v ∈ chatTopics (addToMemory cm t1 chat "topics_discussed" v uid) chat := by
      rw [hc1]
      by_cases hv : v ∈ chatTopics cm chat
      · rwa [if_pos hv]
      · rw [if_neg hv]; exact List.mem_append_right _ (List.mem_singleton_self v)
    have hc2 : chatTopics (addToMemory (addToMemory cm t1 chat "topics_discussed" v uid) t2 chat "topics_discussed" v uid) chat =
        chatTopics (addToMemory cm t1 chat "topics_discussed" v uid) chat := by
      rw [chatTopics_addToMemory, if_pos hmem1]
    have hcount1 : (chatTopics (addToMemory cm t1 chat "topics_discussed" v uid) chat).count v = 1 := by
      rw [hc1]
      by_cases hv : v ∈ chatTopics cm chat
      · rw [if_pos hv]
        have := List.count_pos_iff.mpr hv
        omega
      · rw [if_neg hv]
        rw [List.count_append, List.count_eq_zero.mpr hv]
        simp
    exact ⟨hc2, hcount1, by rw [hc2]; exact hcount1,
      chatLastInteraction_addToMemory_topics cm t1 chat v uid,
      chatLastInteraction_addToMemory_topics _ t2 chat v uid⟩
  · have hc1 := chatFacts_addToMemory cm t1 chat v uid
    have hmem1 : v ∈ chatFacts (addToMemory cm t1 chat "important_facts" v uid) chat := by
      rw [hc1]
      by_cases hv : v ∈ chatFacts cm chat
      · rwa [if_pos hv]
      · rw [if_neg hv]; exact List.mem_append_right _ (List.mem_singleton_self v)
    have hc2 : chatFacts (addToMemory (addToMemory cm t1 chat "important_facts" v uid) t2 chat "important_facts" v uid) chat =
        chatFacts (addToMemory cm t1 chat "important_facts" v uid) chat := by
      rw [chatFacts_addToMemory, if_pos hmem1]
    have hcount1 : (chatFacts (addToMemory cm t1 chat "important_facts" v uid) chat).count v = 1 := by
      rw [hc1]
      by_cases hv : v ∈ chatFacts cm chat
      · rw [if_pos hv]
        have := List.count_pos_iff.mpr hv
        omega
      · rw [if_neg hv]
        rw [List.count_append, List.count_eq_zero.mpr hv]
        simp
    exact ⟨hc2, hcount1, by rw [hc2]; exact hcount1,
      chatLastInteraction_addToMemory_facts cm t1 chat v uid,
      chatLastInteraction_addToMemory_facts _ t2 chat v uid⟩

/-- Witness for C7 at a fresh store, topic/fact value "кава". -/
theorem c7_add_fact_idempotent_witness :
    (chatTopics (addToMemory (addToMemory (loadFromDoc none 250 300) 4 1 "topics_discussed" (MemValue.text "кава") none) 5 1 "topics_discussed" (MemValue.text "кава") none) 1 =
       chatTopics (addToMemory (loadFromDoc none 250 300) 4 1 "topics_discussed" (MemValue.text "кава") none) 1 ∧
     (chatTopics (addToMemory (loadFromDoc none 250 300) 4 1 "topics_discussed" (MemValue.text "кава") none) 1).count (MemValue.text "кава") = 1 ∧
     (chatTopics (addToMemory (addToMemory (loadFromDoc none 250 300) 4 1 "topics_discussed" (MemValue.text "кава") none) 5 1 "topics_discussed" (MemValue.text "кава") none) 1).count (MemValue.text "кава") = 1 ∧
     chatLastInteraction (addToMemory (loadFromDoc none 250 300) 4 1 "topics_discussed" (MemValue.text "кава") none) 1 = some 4 ∧
     chatLastInteraction (addToMemory (addToMemory (loadFromDoc none 250 300) 4 1 "topics_discussed" (MemValue.text "кава") none) 5 1 "topics_discussed" (MemValue.text "кава") none) 1 = some 5) ∧
    (chatFacts (addToMemory (addToMemory (loadFromDoc none 250 300) 4 1 "important_facts" (MemValue.text "кава") none) 5 1 "important_facts" (MemValue.text "кава") none) 1 =
       chatFacts (addToMemory (loadFromDoc none 250 300) 4 1 "important_facts" (MemValue.text "кава") none) 1 ∧
     (chatFacts (addToMemory (loadFromDoc none 250 300) 4 1 "important_facts" (MemValue.text "кава") none) 1).count (MemValue.text "кава") = 1 ∧
     (chatFacts (addToMemory (addToMemory (loadFromDoc none 250 300) 4 1 "important_facts" (MemValue.text "кава") none) 5 1 "important_facts" (MemValue.text "кава") none) 1).count (MemValue.text "кава") = 1 ∧
     chatLastInteraction (addToMemory (loadFromDoc none 250 300) 4 1 "important_facts" (MemValue.text "кава") none) 1 = some 4 ∧
     chatLastInteraction (addToMemory (addToMemory (loadFromDoc none 250 300) 4 1 "important_facts" (MemValue.text "кава") none) 5 1 "important_facts" (MemValue.text "кава") none) 1 = some 5) :=
  c7_add_fact_idempotent (loadFromDoc none 250 300) 4 5 1 (MemValue.text "кава") none
    (by decide) (by decide)

/-! ## Field-preservation lemmas for the add_message pipeline -/

theorem addToMemory_fields (cm : ContextManager) (now chat : Nat) (cat : String)
    (v : MemValue) (uid : Option Nat) :
    (addToMemory cm now chat cat v uid).conversations = cm.conversations ∧
    (addToMemory cm now chat cat v uid).max_messages = cm.max_messages ∧
    (addToMemory cm now chat cat v uid).user_impressions = cm.user_impressions ∧
    (addToMemory cm now chat cat v uid).last_impression_update = cm.last_impression_update :=
  ⟨rfl, rfl, rfl, rfl⟩

theorem applyDetected_fields (cm : ContextManager) (now chat : Nat) (uid : Option Nat)
    (d : Detected) :
    (applyDetected cm now chat uid d).conversations = cm.conversations ∧
    (applyDetected cm now chat uid d).max_messages = cm.max_messages ∧
    (applyDetected cm now chat uid d).user_impressions = cm.user_impressions ∧
    (applyDetected cm now chat uid d).last_impression_update = cm.last_impression_update := by
  cases d <;> exact ⟨rfl, rfl, rfl, rfl⟩

theorem foldl_applyDetected_fields (now chat : Nat) (uid : Option Nat)
    (ds : List Detected) : ∀ cm : ContextManager,
    ((ds.foldl (fun c d => applyDetected c now chat uid d) cm).conversations = cm.conversations ∧
     (ds.foldl (fun c d => applyDetected c now chat uid d) cm).max_messages = cm.max_messages ∧
     (ds.foldl (fun c d => applyDetected c now chat uid d) cm).user_impressions = cm.user_impressions ∧
     (ds.foldl (fun c d => applyDetected c now chat uid d) cm).last_impression_update = cm.last_impression_update) := by
  induction ds with
  | nil => exact fun cm => ⟨rfl, rfl, rfl, rfl⟩
  | cons d t ih =>
    intro cm
    have h1 := applyDetected_fields cm now chat uid d
    have h2 := ih (applyDetected cm now chat uid d)
    simp only [List.foldl_cons]
    exact ⟨h2.1.trans h1.1, h2.2.1.trans h1.2.1, h2.2.2.1.trans h1.2.2.1,
      h2.2.2.2.trans h1.2.2.2⟩

theorem maybeUpdate_conv_fields (cm : ContextManager) (now chat : Nat) (uid : Option Nat)
    (un : String) :
    (maybeUpdateUserImpression cm now chat uid un).conversations = cm.conversations ∧
    (maybeUpdateUserImpression cm now chat uid un).max_messages = cm.max_messages ∧
    (maybeUpdateUserImpression cm now chat uid un).memory = cm.memory := by
  unfold maybeUpdateUserImpression generateUserImpression
  refine ⟨?_, ?_, ?_⟩ <;> dsimp only <;> (repeat' split) <;> rfl

/-- `add_message`'s effect on the conversations map: append the entry to the
chat's list and trim it; all the memory/impression bookkeeping leaves the
conversations and the capacity untouched. -/
theorem addMessage_conversations (cm : ContextManager) (now chat : Nat)
    (uid : Option Nat) (un ct : String) (ib : Bool) (det : List Detected) :
    ((addMessage cm now chat uid un ct ib det).1).conversations =
      dictSet cm.conversations chat
        (trimConv cm.max_messages (((dictGet cm.conversations chat).getD []) ++ [⟨now, uid, un, ct, ib⟩])) ∧
    ((addMessage cm now chat uid un ct ib det).1).max_messages = cm.max_messages := by
  unfold addMessage
  cases ib
  · simp only [Bool.false_eq_true, if_false]
    constructor
    · rw [(maybeUpdate_conv_fields _ _ _ _ _).1, (foldl_applyDetected_fields _ _ _ _ _).1]
      rfl
    · rw [(maybeUpdate_conv_fields _ _ _ _ _).2.1, (foldl_applyDetected_fields _ _ _ _ _).2.1]
      rfl
  · exact ⟨rfl, rfl⟩

/-- One request of the C5 append trace. -/
structure AppendReq where
  now : Nat
  user_id : Option Nat
  username : String
  content : String
  is_bot : Bool
  detected : List Detected

/-- The message entry an append request creates. -/
def reqMessage (r : AppendReq) : Message :=
  ⟨r.now, r.user_id, r.username, r.content, r.is_bot⟩

/-- A sequence of `add_message` calls into one chat. -/
def runAppends (cm : ContextManager) (chat : Nat) (reqs : List AppendReq) : ContextManager :=
  reqs.foldl (fun c r => (addMessage c r.now chat r.user_id r.username r.content r.is_bot r.detected).1) cm

theorem trimConv_eq_drop {α : Type} (max : Nat) (hmax : 0 < max) (l : List α) :
    trimConv max l = l.drop (l.length - max) := by
  unfold trimConv pySliceLast
  by_cases h : l.length > max
  · rw [if_pos h, if_neg (by omega)]
  · rw [if_neg h]
    have h0 : l.length - max = 0 := by omega
    rw [h0, List.drop_zero]

theorem window_step {α : Type} (max : Nat) (init : List α) (m : α) (rest : List α) :
    List.drop ((List.drop ((init ++ [m]).length - max) (init ++ [m]) ++ rest).length - max)
        (List.drop ((init ++ [m]).length - max) (init ++ [m]) ++ rest) =
      List.drop ((init ++ m :: rest).length - max) (init ++ m :: rest) := by
  have hd : (init ++ [m]).length - max ≤ (init ++ [m]).length := Nat.sub_le _ _
  rw [← List.drop_append_of_le_length hd, List.length_drop, List.drop_drop,
    show init ++ m :: rest = (init ++ [m]) ++ rest by simp]
  congr 1
  simp only [List.length_append, List.length_singleton]
  omega

/-- The conversations list after a run of appends is the sliding window of
the last `max_messages` elements over the initial list plus all appended
messages. -/
theorem runAppends_window (chat : Nat) (reqs : List AppendReq) :
    ∀ cm : ContextManager, 0 < cm.max_messages →
    ((dictGet cm.conversations chat).getD []).length ≤ cm.max_messages →
    ((dictGet (runAppends cm chat reqs).conversations chat).getD [] =
      (((dictGet cm.conversations chat).getD []) ++ reqs.map reqMessage).drop
        ((((dictGet cm.conversations chat).getD []) ++ reqs.map reqMessage).length - cm.max_messages) ∧
     (runAppends cm chat reqs).max_messages = cm.max_messages) := by
  induction reqs with
  | nil =>
    intro cm hmax hlen
    refine ⟨?_, rfl⟩
    simp only [runAppends, List.foldl_nil, List.map_nil, List.append_nil]
    rw [Nat.sub_eq_zero_of_le hlen, List.drop_zero]
  | cons r rest ih =>
    intro cm hmax hlen
    set init := (dictGet cm.conversations chat).getD [] with hinit
    set m := reqMessage r with hm
    have hstep := addMessage_conversations cm r.now chat r.user_id r.username r.content r.is_bot r.detected
    set cm' := (addMessage cm r.now chat r.user_id r.username r.content r.is_bot r.detected).1 with hcm'
    have hconv' : (dictGet cm'.conversations chat).getD [] =
        (init ++ [m]).drop ((init ++ [m]).length - cm.max_messages) := by
      rw [hstep.1, dictGet_set_self, Option.getD_some, trimConv_eq_drop _ hmax]
      rfl
    have hlen' : ((dictGet cm'.conversations chat).getD []).length ≤ cm'.max_messages := by
      rw [hconv', hstep.2, List.length_drop]
      omega
    have hmax' : 0 < cm'.max_messages := by rw [hstep.2]; exact hmax
    have hrun : runAppends cm chat (r :: rest) = runAppends cm' chat rest := rfl
    obtain ⟨hwin, hmaxeq⟩ := ih cm' hmax' hlen'
    rw [hrun]
    refine ⟨?_, hmaxeq.trans hstep.2⟩
    rw [hwin, hconv', hstep.2]
    simp only [List.map_cons]
    exact window_step cm.max_messages init m (List.map reqMessage rest)

/-- C5: a conversation is a bounded ring buffer — after `N > max_messages`
appends into a chat whose list fits in the capacity, the stored list is
exactly the last `max_messages` appended messages in arrival order, its
length is exactly `max_messages`, and no prefix of the run ever exceeds
`max_messages`. -/
theorem c5_ring_buffer (cm : ContextManager) (chat : Nat) (reqs : List AppendReq)
    (hmax : 0 < cm.max_messages)
    (hinit : ((dictGet cm.conversations chat).getD []).length ≤ cm.max_messages)
    (hN : cm.max_messages < reqs.length) :
    (dictGet (runAppends cm chat reqs).conversations chat).getD [] =
      (reqs.map reqMessage).drop (reqs.length - cm.max_messages) ∧
    ((dictGet (runAppends cm chat reqs).conversations chat).getD []).length = cm.max_messages ∧
    (∀ k : Nat, ((dictGet (runAppends cm chat (reqs.take k)).conversations chat).getD []).length ≤
      cm.max_messages) := by
  obtain ⟨hwin, _⟩ := runAppends_window chat reqs cm hmax hinit
  have hfirst : (dictGet (runAppends cm chat reqs).conversations chat).getD [] =
      (reqs.map reqMessage).drop (reqs.length - cm.max_messages) := by
    rw [hwin]
    set init := (dictGet cm.conversations chat).getD [] with hinitdef
    have hsplit : (init ++ reqs.map reqMessage).length - cm.max_messages =
        init.length + ((reqs.map reqMessage).length - cm.max_messages) := by
      simp only [List.length_append, List.length_map]
      omega
    rw [hsplit, ← List.drop_drop, List.drop_left]
    simp only [List.length_map]
  refine ⟨hfirst, ?_, ?_⟩
  · rw [hfirst, List.length_drop, List.length_map]
    omega
  · intro k
    obtain ⟨hwink, _⟩ := runAppends_window chat (reqs.take k) cm hmax hinit
    rw [hwink, List.length_drop]
    omega

/-- Witness for C5: capacity 3, five appends, final list is the last three
messages in order. -/
theorem c5_ring_buffer_witness :
    (dictGet (runAppends (loadFromDoc none 3 300) 1
        [⟨0, some 2, "b", "m0", false, []⟩, ⟨1, some 2, "b", "m1", false, []⟩,
         ⟨2, some 2, "b", "m2", false, []⟩, ⟨3, some 2, "b", "m3", false, []⟩,
         ⟨4, some 2, "b", "m4", false, []⟩]).conversations 1).getD [] =
      ([⟨0, some 2, "b", "m0", false, []⟩, ⟨1, some 2, "b", "m1", false, []⟩,
        ⟨2, some 2, "b", "m2", false, []⟩, ⟨3, some 2, "b", "m3", false, []⟩,
        (⟨4, some 2, "b", "m4", false, []⟩ : AppendReq)].map reqMessage).drop 2 ∧
    ((dictGet (runAppends (loadFromDoc none 3 300) 1
        [⟨0, some 2, "b", "m0", false, []⟩, ⟨1, some 2, "b", "m1", false, []⟩,
         ⟨2, some 2, "b", "m2", false, []⟩, ⟨3, some 2, "b", "m3", false, []⟩,
         ⟨4, some 2, "b", "m4", false, []⟩]).conversations 1).getD []).length = 3 ∧
    (∀ k : Nat, ((dictGet (runAppends (loadFromDoc none 3 300) 1
        ([⟨0, some 2, "b", "m0", false, []⟩, ⟨1, some 2, "b", "m1", false, []⟩,
          ⟨2, some 2, "b", "m2", false, []⟩, ⟨3, some 2, "b", "m3", false, []⟩,
          ⟨4, some 2, "b", "m4", false, []⟩].take k)).conversations 1).getD []).length ≤ 3) :=
  c5_ring_buffer (loadFromDoc none 3 300) 1 _ (by decide) (by decide) (by decide)

/-! ## C4 — impression scheduling -/

theorem updateMemory_fields (cm : ContextManager) (now chat : Nat) :
    (updateMemory cm now chat).conversations = cm.conversations ∧
    (updateMemory cm now chat).max_messages = cm.max_messages ∧
    (updateMemory cm now chat).user_impressions = cm.user_impressions ∧
    (updateMemory cm now chat).last_impression_update = cm.last_impression_update :=
  ⟨rfl, rfl, rfl, rfl⟩

/-- The impression-job payload `_generate_user_impression` stores
(src/context_manager.py lines 399-406), as a function of the state it reads. -/
def impressionJob (cm : ContextManager) (now chat u : Nat) (un : String)
    (msgs : List Message) : ImpressionData :=
  ⟨un, msgs.length,
   String.intercalate "\n" ((pySliceLast 50 msgs).map (fun m => m.content)),
   (match dictGet cm.memory chat with
    | some m => (dictGet m.user_impressions u).getD ""
    | none => ""), true, now⟩

/-- What one non-bot `add_message` from a nonzero user does to the impression
bookkeeping, as a function of the user's message count in the updated
conversation and of the stored baseline: below 10 messages nothing happens;
at or above 10, nothing happens unless the baseline is absent or 30 or more
messages behind, in which case one impression job is (re)written under the
`(chat, user)` key and the baseline is set to the current count. -/
theorem addMessage_impressions (cm : ContextManager) (now chat u : Nat) (un ct : String)
    (det : List Detected) (hu : u ≠ 0) (userMessages : List Message)
    (hum : userMessages = (trimConv cm.max_messages (((dictGet cm.conversations chat).getD []) ++
        [⟨now, some u, un, ct, false⟩])).filter (fun m => !m.is_bot && m.user_id == some u)) :
    (userMessages.length < 10 →
      ((addMessage cm now chat (some u) un ct false det).1).user_impressions = cm.user_impressions ∧
      ((addMessage cm now chat (some u) un ct false det).1).last_impression_update = cm.last_impression_update) ∧
    (¬ userMessages.length < 10 →
      ((match dictGet cm.last_impression_update (chat, u) with
        | none => true
        | some last => decide ((userMessages.length : Int) - (last : Int) ≥ 30)) = false →
        ((addMessage cm now chat (some u) un ct false det).1).user_impressions = cm.user_impressions ∧
        ((addMessage cm now chat (some u) un ct false det).1).last_impression_update = cm.last_impression_update) ∧
      ((match dictGet cm.last_impression_update (chat, u) with
        | none => true
        | some last => decide ((userMessages.length : Int) - (last : Int) ≥ 30)) = true →
        (∃ data : ImpressionData, data.needs_generation = true ∧
          ((addMessage cm now chat (some u) un ct false det).1).user_impressions =
            dictSet cm.user_impressions (chat, u) data) ∧
        ((addMessage cm now chat (some u) un ct false det).1).last_impression_update =
          dictSet cm.last_impression_update (chat, u) userMessages.length)) := by
  set newConv := trimConv cm.max_messages (((dictGet cm.conversations chat).getD []) ++
      [(⟨now, some u, un, ct, false⟩ : Message)]) with hnewConv
  set M := det.foldl (fun c d => applyDetected c now chat (some u) d)
      (updateMemory { cm with conversations := dictSet cm.conversations chat newConv } now chat)
    with hMdef
  have hM := foldl_applyDetected_fields now chat (some u) det
      (updateMemory { cm with conversations := dictSet cm.conversations chat newConv } now chat)
  have hMconv : (dictGet M.conversations chat).getD [] = newConv := by
    rw [hMdef, hM.1]
    show (dictGet (dictSet cm.conversations chat newConv) chat).getD [] = newConv
    rw [dictGet_set_self]
    rfl
  have hMui : M.user_impressions = cm.user_impressions := by
    rw [hMdef, hM.2.2.1]
    rfl
  have hMliu : M.last_impression_update = cm.last_impression_update := by
    rw [hMdef, hM.2.2.2]
    rfl
  have hfu : userFalsy (some u) = false := by simp [userFalsy, hu]
  have hresui : ((addMessage cm now chat (some u) un ct false det).1).user_impressions =
      (maybeUpdateUserImpression M now chat (some u) un).user_impressions := rfl
  have hresliu : ((addMessage cm now chat (some u) un ct false det).1).last_impression_update =
      (maybeUpdateUserImpression M now chat (some u) un).last_impression_update := rfl
  have hcore : maybeUpdateUserImpression M now chat (some u) un =
      (if userMessages.length < 10 then M
       else if (match dictGet M.last_impression_update (chat, u) with
                | none => true
                | some last => decide ((userMessages.length : Int) - (last : Int) ≥ 30)) = true then
         { M with
           user_impressions := dictSet M.user_impressions (chat, u)
             (impressionJob M now chat u un userMessages),
           last_impression_update := dictSet M.last_impression_update (chat, u) userMessages.length,
           dirty := true }
       else M) := by
    unfold maybeUpdateUserImpression
    rw [hfu, if_neg Bool.false_ne_true]
    dsimp only
    rw [hMconv, ← hum]
    rfl
  refine ⟨?_, ?_⟩
  · intro h10
    constructor
    · rw [hresui, hcore, if_pos h10]; exact hMui
    · rw [hresliu, hcore, if_pos h10]; exact hMliu
  · intro h10
    refine ⟨?_, ?_⟩
    · intro hfalse
      have hfalse' : (match dictGet M.last_impression_update (chat, u) with
          | none => true
          | some last => decide ((userMessages.length : Int) - (last : Int) ≥ 30)) = false := by
        rw [hMliu]; exact hfalse
      constructor
      · rw [hresui, hcore, if_neg h10, if_neg (by rw [hfalse']; simp)]; exact hMui
      · rw [hresliu, hcore, if_neg h10, if_neg (by rw [hfalse']; simp)]; exact hMliu
    · intro htrue
      have htrue' : (match dictGet M.last_impression_update (chat, u) with
          | none => true
          | some last => decide ((userMessages.length : Int) - (last : Int) ≥ 30)) = true := by
        rw [hMliu]; exact htrue
      refine ⟨⟨impressionJob M now chat u un userMessages, rfl, ?_⟩, ?_⟩
      · rw [hresui, hcore, if_neg h10, if_pos htrue', ← hMui]
      · rw [hresliu, hcore, if_neg h10, if_pos htrue', ← hMliu]

theorem dictGet_cons_self {α β : Type} [DecidableEq α] (k : α) (v : β) (t : List (α × β)) :
    dictGet ((k, v) :: t) k = some v := by
  simp [dictGet]

theorem dictSet_cons_self {α β : Type} [DecidableEq α] (k : α) (v v' : β) (t : List (α × β)) :
    dictSet ((k, v) :: t) k v' = (k, v') :: t := by
  simp [dictSet]

/-- The C4 simulation: a fresh manager receives `k` non-bot messages from
user `u` in chat `c` (arbitrary usernames, texts and auto-detected items),
`add_message` running the impression check after every single one. -/
def simC4 (c u : Nat) (un f : Nat → String) (g : Nat → List Detected) : Nat → ContextManager
  | 0 => loadFromDoc none 250 300
  | k + 1 => (addMessage (simC4 c u un f g k) k c (some u) (un k) (f k) false (g k)).1

theorem simC4_invariant (c u : Nat) (un f : Nat → String) (g : Nat → List Detected)
    (hu : u ≠ 0) : ∀ k : Nat, k ≤ 45 →
    ((dictGet (simC4 c u un f g k).conversations c).getD [] =
        (List.range k).map (fun i => (⟨i, some u, un i, f i, false⟩ : Message)) ∧
     (simC4 c u un f g k).max_messages = 250 ∧
     (simC4 c u un f g k).last_impression_update =
        (if k < 10 then [] else [((c, u), if k < 40 then 10 else 40)]) ∧
     (if k < 10 then (simC4 c u un f g k).user_impressions = []
      else ∃ d : ImpressionData, (simC4 c u un f g k).user_impressions = [((c, u), d)] ∧
        d.needs_generation = true)) := by
  intro k
  induction k with
  | zero =>
    intro _
    refine ⟨?_, ?_, ?_, ?_⟩ <;> simp [simC4, loadFromDoc, dictGet]
  | succ k ih =>
    intro hk45
    obtain ⟨hconv, hmax, hliu, hui⟩ := ih (by omega)
    set S := simC4 c u un f g k with hS
    have hsim : simC4 c u un f g (k + 1) =
        (addMessage S k c (some u) (un k) (f k) false (g k)).1 := rfl
    have hstep := addMessage_conversations S k c (some u) (un k) (f k) false (g k)
    have hnew : trimConv S.max_messages (((dictGet S.conversations c).getD []) ++
          [⟨k, some u, un k, f k, false⟩]) =
        (List.range (k + 1)).map (fun i => (⟨i, some u, un i, f i, false⟩ : Message)) := by
      rw [hconv, hmax]
      unfold trimConv
      rw [if_neg (by simp; omega)]
      rw [List.range_succ, List.map_append]
      rfl
    have hconv' : (dictGet (simC4 c u un f g (k + 1)).conversations c).getD [] =
        (List.range (k + 1)).map (fun i => (⟨i, some u, un i, f i, false⟩ : Message)) := by
      rw [hsim, hstep.1, dictGet_set_self, Option.getD_some, hnew]
    have hmax' : (simC4 c u un f g (k + 1)).max_messages = 250 := by
      rw [hsim, hstep.2, hmax]
    have hfilter : ((List.range (k + 1)).map
          (fun i => (⟨i, some u, un i, f i, false⟩ : Message))).filter
          (fun m => !m.is_bot && m.user_id == some u) =
        (List.range (k + 1)).map (fun i => (⟨i, some u, un i, f i, false⟩ : Message)) := by
      apply List.filter_eq_self.mpr
      intro m hm
      simp only [List.mem_map, List.mem_range] at hm
      obtain ⟨i, _, rfl⟩ := hm
      simp
    have humsg : (List.range (k + 1)).map (fun i => (⟨i, some u, un i, f i, false⟩ : Message)) =
        (trimConv S.max_messages (((dictGet S.conversations c).getD []) ++
          [⟨k, some u, un k, f k, false⟩])).filter (fun m => !m.is_bot && m.user_id == some u) := by
      rw [hnew, hfilter]
    have himp := addMessage_impressions S k c u (un k) (f k) (g k) hu
      ((List.range (k + 1)).map (fun i => (⟨i, some u, un i, f i, false⟩ : Message))) humsg
    have hulen : ((List.range (k + 1)).map
        (fun i => (⟨i, some u, un i, f i, false⟩ : Message))).length = k + 1 := by simp
    by_cases h10 : k + 1 < 10
    · obtain ⟨huiEq, hliuEq⟩ := himp.1 (by rw [hulen]; exact h10)
      have hklt : k < 10 := by omega
      rw [if_pos hklt] at hui
      refine ⟨hconv', hmax', ?_, ?_⟩
      · rw [hsim, hliuEq, hliu, if_pos hklt, if_pos h10]
      · rw [if_pos h10, hsim, huiEq, hui]
    · have hbig : ¬ ((List.range (k + 1)).map
          (fun i => (⟨i, some u, un i, f i, false⟩ : Message))).length < 10 := by
        rw [hulen]; exact h10
      by_cases hk10 : k < 10
      · -- k+1 = 10 : first threshold crossing, baseline absent, generation fires
        have hk9 : k = 9 := by omega
        subst hk9
        rw [if_pos hk10] at hui hliu
        have htrue : (match dictGet S.last_impression_update (c, u) with
            | none => true
            | some last => decide ((((List.range (9 + 1)).map
                (fun i => (⟨i, some u, un i, f i, false⟩ : Message))).length : Int) -
                  (last : Int) ≥ 30)) = true := by
          rw [hliu]
          rfl
        obtain ⟨⟨data, hdata, huiEq⟩, hliuEq⟩ := (himp.2 hbig).2 htrue
        refine ⟨hconv', hmax', ?_, ?_⟩
        · rw [hsim, hliuEq, hliu, hulen, if_neg h10, if_pos (by omega)]
          rfl
        · rw [if_neg h10]
          refine ⟨data, ?_, hdata⟩
          rw [hsim, huiEq, hui]
          rfl
      · -- k ≥ 10 : baseline present
        rw [if_neg hk10] at hui hliu
        obtain ⟨d0, hd0, hd0need⟩ := hui
        by_cases hgen : k = 39
        · -- k+1 = 40 : the 30-message delta is reached, regeneration fires
          subst hgen
          rw [if_pos (by omega)] at hliu
          have htrue : (match dictGet S.last_impression_update (c, u) with
              | none => true
              | some last => decide ((((List.range (39 + 1)).map
                  (fun i => (⟨i, some u, un i, f i, false⟩ : Message))).length : Int) -
                    (last : Int) ≥ 30)) = true := by
            rw [hliu, dictGet_cons_self, hulen]
            decide
          obtain ⟨⟨data, hdata, huiEq⟩, hliuEq⟩ := (himp.2 hbig).2 htrue
          refine ⟨hconv', hmax', ?_, ?_⟩
          · rw [hsim, hliuEq, hliu, hulen, dictSet_cons_self, if_neg h10, if_neg (by omega)]
          · rw [if_neg h10]
            refine ⟨data, ?_, hdata⟩
            rw [hsim, huiEq, hd0, dictSet_cons_self]
        · -- no threshold crossing: 30 new messages not yet reached
          have hfalse : (match dictGet S.last_impression_update (c, u) with
              | none => true
              | some last => decide ((((List.range (k + 1)).map
                  (fun i => (⟨i, some u, un i, f i, false⟩ : Message))).length : Int) -
                    (last : Int) ≥ 30)) = false := by
            rw [hliu, dictGet_cons_self, hulen]
            dsimp only
            simp only [decide_eq_false_iff_not]
            by_cases hk40 : k < 40
            · rw [if_pos hk40]; push_cast; omega
            · rw [if_neg hk40]; push_cast; omega
          obtain ⟨huiEq, hliuEq⟩ := (himp.2 hbig).1 hfalse
          refine ⟨hconv', hmax', ?_, ?_⟩
          · rw [hsim, hliuEq, hliu, if_neg h10]
            have hsame : (if k < 40 then (10 : Nat) else 40) = (if k + 1 < 40 then 10 else 40) := by
              by_cases hk40 : k < 40
              · rw [if_pos hk40, if_pos (by omega)]
              · rw [if_neg hk40, if_neg (by omega)]
            rw [hsame]
          · rw [if_neg h10]
            exact ⟨d0, by rw [hsim, huiEq, hd0], hd0need⟩

/-- C4: starting from a fresh user in a chat, appending 45 non-bot messages
from that user — with the impression-update check invoked after every single
message, initial threshold 10 and batch threshold 30 — leaves exactly one
pending-generation entry for that `(chat, user)` pair in the pending list,
and no entry exists while the user's message count is below 10. -/
theorem c4_impression_scheduling (c u : Nat) (un f : Nat → String)
    (g : Nat → List Detected) (hu : u ≠ 0) :
    getUsersNeedingImpressions (simC4 c u un f g 45) = [(c, u)] ∧
    (∀ k : Nat, k < 10 → getUsersNeedingImpressions (simC4 c u un f g k) = []) := by
  constructor
  · obtain ⟨_, _, _, hui⟩ := simC4_invariant c u un f g hu 45 (by omega)
    rw [if_neg (by omega)] at hui
    obtain ⟨d, hd, hneed⟩ := hui
    simp [getUsersNeedingImpressions, hd, hneed]
  · intro k hk
    obtain ⟨_, _, _, hui⟩ := simC4_invariant c u un f g hu k (by omega)
    rw [if_pos hk] at hui
    simp [getUsersNeedingImpressions, hui]

/-- Witness for C4 at chat 1, user 2, constant texts, no auto-detected items. -/
theorem c4_impression_scheduling_witness :
    getUsersNeedingImpressions (simC4 1 2 (fun _ => "bob") (fun _ => "hello")
      (fun _ => []) 45) = [(1, 2)] ∧
    getUsersNeedingImpressions (simC4 1 2 (fun _ => "bob") (fun _ => "hello")
      (fun _ => []) 9) = [] :=
  ⟨(c4_impression_scheduling 1 2 (fun _ => "bob") (fun _ => "hello") (fun _ => [])
      (by decide)).1,
   (c4_impression_scheduling 1 2 (fun _ => "bob") (fun _ => "hello") (fun _ => [])
      (by decide)).2 9 (by decide)⟩

/-! ## C9 — bounded global impression history -/

theorem dictDel_cons_self {α β : Type} [DecidableEq α] (k : α) (v : β) (t : List (α × β)) :
    dictDel ((k, v) :: t) k = t := by
  simp [dictDel]

theorem minKey_mem : ∀ (l : List (Nat × String)) (m : Nat), minKey l = some m →
    m ∈ l.map Prod.fst := by
  intro l
  induction l with
  | nil => intro m h; simp [minKey] at h
  | cons p t ih =>
    intro m h
    unfold minKey at h
    cases hmt : minKey t with
    | none =>
      rw [hmt] at h
      simp only [Option.some.injEq] at h
      subst h
      simp
    | some m0 =>
      rw [hmt] at h
      simp only [Option.some.injEq] at h
      subst h
      rcases le_total p.1 m0 with hle | hle
      · rw [Nat.min_eq_left hle]; simp
      · rw [Nat.min_eq_right hle]
        simp only [List.map_cons, List.mem_cons]
        exact Or.inr (ih m0 hmt)

theorem minKey_sorted (k : Nat) (v : String) (t : List (Nat × String))
    (h : (((k, v) :: t).map Prod.fst).Pairwise (· < ·)) :
    minKey ((k, v) :: t) = some k := by
  unfold minKey
  cases hmt : minKey t with
  | none => rfl
  | some m =>
    have hm : m ∈ t.map Prod.fst := minKey_mem t m hmt
    simp only [List.map_cons, List.pairwise_cons] at h
    have hkm : k < m := h.1 m hm
    show some (min k m) = some k
    rw [Nat.min_eq_left (Nat.le_of_lt hkm)]

theorem evict_sorted (l : List (Nat × String)) (hne : l ≠ [])
    (hsort : (l.map Prod.fst).Pairwise (· < ·)) :
    (match minKey l with
     | some oldest => dictDel l oldest
     | none => l) = l.tail := by
  cases l with
  | nil => exact absurd rfl hne
  | cons p t =>
    obtain ⟨k, v⟩ := p
    rw [minKey_sorted k v t hsort]
    exact dictDel_cons_self k v t

theorem dictSet_length_le {α β : Type} [DecidableEq α] (d : List (α × β)) (k : α) (v : β) :
    (dictSet d k v).length ≤ d.length + 1 := by
  induction d with
  | nil => simp [dictSet]
  | cons p t ih =>
    by_cases h : p.1 = k <;> simp [dictSet, h] <;> omega

theorem dictDel_length_of_mem {α β : Type} [DecidableEq α] (d : List (α × β)) (k : α)
    (h : k ∈ d.map Prod.fst) : (dictDel d k).length = d.length - 1 := by
  induction d with
  | nil => simp at h
  | cons p t ih =>
    by_cases hk : p.1 = k
    · simp [dictDel, hk]
    · simp only [List.map_cons, List.mem_cons] at h
      rcases h with h | h
      · exact absurd h.symm hk
      · have hpos : 0 < t.length := by
          have := List.length_pos_of_mem h
          simpa using this
        simp only [dictDel, if_neg hk, List.length_cons, ih h]
        omega

theorem minKey_isSome (p : Nat × String) (t : List (Nat × String)) :
    (minKey (p :: t)).isSome = true := by
  obtain ⟨k, v⟩ := p
  unfold minKey
  cases minKey t <;> simp

/-- The C9 run: record one impression per (timestamp, text) pair, in order. -/
def saveImpressions (gm : GlobalMemory) (u : Nat) (pairs : List (Nat × String)) : GlobalMemory :=
  pairs.foldl (fun g p => (saveUserImpression g p.1 u p.2).2) gm

theorem saveImpressions_window (u : Nat) (pairs : List (Nat × String)) :
    ∀ (gm : GlobalMemory) (rec : GlobalUser),
    dictGet gm.users u = some rec →
    (((rec.impressions ++ pairs).map Prod.fst).Pairwise (· < ·)) →
    rec.impressions.length ≤ gm.max_impressions →
    ∃ rec' : GlobalUser, dictGet (saveImpressions gm u pairs).users u = some rec' ∧
      rec'.impressions = (rec.impressions ++ pairs).drop
        (rec.impressions.length + pairs.length - gm.max_impressions) := by
  induction pairs with
  | nil =>
    intro gm rec h1 _ h3
    refine ⟨rec, by simpa [saveImpressions] using h1, ?_⟩
    simp only [List.append_nil, List.length_nil, Nat.add_zero]
    rw [Nat.sub_eq_zero_of_le h3, List.drop_zero]
  | cons p rest ih =>
    intro gm rec h1 hsort h3
    obtain ⟨t, s⟩ := p
    have hkeys : ∀ x ∈ rec.impressions.map Prod.fst, x < t := by
      have h' := hsort
      rw [List.map_append] at h'
      intro x hx
      exact (List.pairwise_append.mp h').2.2 x hx t (by simp)
    have htnot : dictGet rec.impressions t = none := by
      rw [dictGet_eq_none_iff]
      intro hmem
      exact absurd (hkeys t hmem) (lt_irrefl t)
    have hset : dictSet rec.impressions t s = rec.impressions ++ [(t, s)] :=
      dictSet_of_not_mem _ _ _ htnot
    have hsort1 : ((rec.impressions ++ [(t, s)]).map Prod.fst).Pairwise (· < ·) := by
      refine List.Pairwise.sublist (List.Sublist.map _ ?_) hsort
      exact List.Sublist.append (List.Sublist.refl _) (List.cons_sublist_cons.mpr (List.nil_sublist rest))
    by_cases hroom : rec.impressions.length + 1 ≤ gm.max_impressions
    · -- no eviction
      have hstep : (saveUserImpression gm t u s).2 =
          { gm with users := dictSet gm.users u ({ rec with impressions := rec.impressions ++ [(t, s)] }),
                    dirty := false } := by
        unfold saveUserImpression
        rw [h1]
        dsimp only
        rw [hset, if_neg (by simp only [List.length_append, List.length_singleton]; omega)]
      have hfold : saveImpressions gm u ((t, s) :: rest) =
          saveImpressions (saveUserImpression gm t u s).2 u rest := by
        simp only [saveImpressions, List.foldl_cons]
      obtain ⟨rec', hg', himps'⟩ := ih (saveUserImpression gm t u s).2
        { rec with impressions := rec.impressions ++ [(t, s)] }
        (by rw [hstep]; exact dictGet_set_self _ _ _)
        (by simpa [List.append_assoc] using hsort)
        (by rw [hstep]; dsimp only; simp only [List.length_append, List.length_singleton]; omega)
      refine ⟨rec', by rw [hfold]; exact hg', ?_⟩
      rw [himps', hstep]
      dsimp only
      simp only [List.append_assoc, List.singleton_append, List.length_append,
        List.length_singleton, List.length_cons, List.length_nil]
      congr 1
      omega
    · -- history already full: the oldest entry is evicted
      have hfull : rec.impressions.length = gm.max_impressions := by omega
      have hne : rec.impressions ++ [(t, s)] ≠ [] := by simp
      have hevict : (match minKey (rec.impressions ++ [(t, s)]) with
          | some oldest => dictDel (rec.impressions ++ [(t, s)]) oldest
          | none => rec.impressions ++ [(t, s)]) = (rec.impressions ++ [(t, s)]).tail :=
        evict_sorted _ hne hsort1
      have hstep : (saveUserImpression gm t u s).2 =
          { gm with users := dictSet gm.users u ({ rec with impressions := (rec.impressions ++ [(t, s)]).tail }),
                    dirty := false } := by
        unfold saveUserImpression
        rw [h1]
        dsimp only
        rw [hset, if_pos (by simp only [List.length_append, List.length_singleton]; omega), hevict]
      have hfold : saveImpressions gm u ((t, s) :: rest) =
          saveImpressions (saveUserImpression gm t u s).2 u rest := by
        simp only [saveImpressions, List.foldl_cons]
      have htail_len : (rec.impressions ++ [(t, s)]).tail.length = gm.max_impressions := by
        simp only [List.length_tail, List.length_append, List.length_singleton, List.length_nil]
        omega
      have htail_sub : ((rec.impressions ++ [(t, s)]).tail ++ rest).Sublist
          (rec.impressions ++ (t, s) :: rest) := by
        have h2 : (rec.impressions ++ [(t, s)]).tail.Sublist (rec.impressions ++ [(t, s)]) :=
          List.tail_sublist _
        have h3 := List.Sublist.append h2 (List.Sublist.refl rest)
        simpa [List.append_assoc] using h3
      obtain ⟨rec', hg', himps'⟩ := ih (saveUserImpression gm t u s).2
        { rec with impressions := (rec.impressions ++ [(t, s)]).tail }
        (by rw [hstep]; exact dictGet_set_self _ _ _)
        (List.Pairwise.sublist (List.Sublist.map _ htail_sub) hsort)
        (by rw [hstep]; dsimp only
            simp only [List.length_tail, List.length_append, List.length_singleton, List.length_nil]
            omega)
      refine ⟨rec', by rw [hfold]; exact hg', ?_⟩
      rw [himps', hstep]
      dsimp only
      have hd1 : ((rec.impressions ++ [(t, s)]) ++ rest).drop 1 =
          (rec.impressions ++ [(t, s)]).drop 1 ++ rest :=
        List.drop_append_of_le_length (by simp)
      have hdrop1 : (rec.impressions ++ [(t, s)]).tail ++ rest =
          ((rec.impressions ++ [(t, s)]) ++ rest).drop 1 := by
        rw [hd1, List.drop_one]
      rw [hdrop1, List.drop_drop]
      rw [show (rec.impressions ++ [(t, s)]) ++ rest = rec.impressions ++ (t, s) :: rest by simp]
      congr 1
      simp only [List.length_tail, List.length_append, List.length_singleton,
        List.length_cons, List.length_nil]
      omega

/-- C9: inserting `max_impressions + 1` impressions with distinct increasing
timestamps into a user with empty history leaves exactly `max_impressions`
entries, the chronologically oldest timestamp absent; and a single
`save_user_impression` call never pushes a history that was within the cap
over it. -/
theorem c9_global_impression_eviction (gm : GlobalMemory) (u t0 : Nat) (s0 : String)
    (rest : List (Nat × String)) (rec : GlobalUser)
    (h1 : dictGet gm.users u = some rec)
    (h2 : rec.impressions = [])
    (h3 : rest.length = gm.max_impressions)
    (h4 : (((t0, s0) :: rest).map Prod.fst).Pairwise (· < ·)) :
    (∃ rec' : GlobalUser,
       dictGet (saveImpressions gm u ((t0, s0) :: rest)).users u = some rec' ∧
       rec'.impressions.length = gm.max_impressions ∧
       dictGet rec'.impressions t0 = none) ∧
    (∀ (gm2 : GlobalMemory) (now2 u2 : Nat) (s2 : String) (r2 : GlobalUser),
       dictGet gm2.users u2 = some r2 → r2.impressions.length ≤ gm2.max_impressions →
       ∀ r2' : GlobalUser,
         dictGet ((saveUserImpression gm2 now2 u2 s2).2).users u2 = some r2' →
         r2'.impressions.length ≤ gm2.max_impressions) := by
  constructor
  · obtain ⟨rec', hg, himps⟩ := saveImpressions_window u ((t0, s0) :: rest) gm rec h1
      (by rw [h2]; simpa using h4) (by rw [h2]; simp)
    rw [h2] at himps
    simp only [List.nil_append, List.length_nil, List.length_cons, Nat.zero_add] at himps
    rw [h3] at himps
    have hone : gm.max_impressions + 1 - gm.max_impressions = 1 := by omega
    rw [hone] at himps
    simp only [List.drop_one, List.tail_cons] at himps
    refine ⟨rec', hg, ?_, ?_⟩
    · rw [himps, h3]
    · rw [himps, dictGet_eq_none_iff]
      intro hmem
      simp only [List.map_cons, List.pairwise_cons] at h4
      exact absurd (h4.1 t0 hmem) (lt_irrefl t0)
  · intro gm2 now2 u2 s2 r2 hg2 hlen r2' hg2'
    unfold saveUserImpression at hg2'
    rw [hg2] at hg2'
    dsimp only at hg2'
    rw [dictGet_set_self] at hg2'
    obtain rfl := Option.some.inj hg2'
    dsimp only
    have hL := dictSet_length_le r2.impressions now2 s2
    by_cases hover : (dictSet r2.impressions now2 s2).length > gm2.max_impressions
    · rw [if_pos hover]
      cases hLs : dictSet r2.impressions now2 s2 with
      | nil => simp [hLs] at hover
      | cons p tl =>
        cases hmk : minKey (p :: tl) with
        | none =>
          have := minKey_isSome p tl
          rw [hmk] at this
          simp at this
        | some m =>
          have hm : m ∈ (p :: tl).map Prod.fst := minKey_mem _ m hmk
          rw [dictDel_length_of_mem _ _ hm]
          rw [hLs] at hL hover
          omega
    · rw [if_neg hover]
      omega

/-- Witness for C9: capacity 2, three impressions at times 1 < 2 < 3 for
user 5; and the single-call cap instantiated at the same store. -/
theorem c9_global_impression_eviction_witness :
    (∃ rec' : GlobalUser,
       dictGet (saveImpressions ⟨[(5, ⟨5, "u", 0, 0, 0, ⟨"", [], [], "neutral"⟩, [], false, []⟩)], 2, false⟩
         5 [(1, "a"), (2, "b"), (3, "c")]).users 5 = some rec' ∧
       rec'.impressions.length = 2 ∧
       dictGet rec'.impressions 1 = none) ∧
    (∀ (gm2 : GlobalMemory) (now2 u2 : Nat) (s2 : String) (r2 : GlobalUser),
       dictGet gm2.users u2 = some r2 → r2.impressions.length ≤ gm2.max_impressions →
       ∀ r2' : GlobalUser,
         dictGet ((saveUserImpression gm2 now2 u2 s2).2).users u2 = some r2' →
         r2'.impressions.length ≤ gm2.max_impressions) :=
  c9_global_impression_eviction
    ⟨[(5, ⟨5, "u", 0, 0, 0, ⟨"", [], [], "neutral"⟩, [], false, []⟩)], 2, false⟩
    5 1 "a" [(2, "b"), (3, "c")] ⟨5, "u", 0, 0, 0, ⟨"", [], [], "neutral"⟩, [], false, []⟩
    (by decide) (by decide) (by decide) (by decide)

end Anya
